import Mathlib

/-!
Shallow embedding of `src/engine/properties.py` (the `Properties` class of the
i-PI development archive).  Python floats are modelled as rationals (`ℚ`);
exact arithmetic is used throughout, and the one place where the Python-2
*integer* division semantics matters (`kst *= -1/self.beads.nbeads`,
line 228) is modelled with `Int.fdiv`, which is Python's floor division.
External collaborators (the force model behind the shadow `ForceBeads`
evaluator, `math.sqrt`, and `utils.mathtools.h2abc`) are abstracted as
function-valued fields of the state, since only their interface is visible
from this module.
-/

/-- Modelled from the code: `_DEFAULT_FINDIFF = 1e-5` (properties.py line 20). -/
def DEFAULT_FINDIFF : ℚ := 1 / 100000

/-- Modelled from the code: `_DEFAULT_FDERROR = 1e-9` (properties.py line 21). -/
def DEFAULT_FDERROR : ℚ := 1 / 1000000000

/-- Modelled from the code: `_DEFAULT_MINFID = 1e-12` (properties.py line 22). -/
def DEFAULT_MINFID : ℚ := 1 / 1000000000000

/-- The state visible to a bound `Properties` object: the raw simulation
quantities read by the estimators, plus the configured finite-difference
displacement `fd_delta` and the registry-owned shadow ensemble positions
`dbeadsQ`.  Configurations are flattened atom arrays: `beadsQ b i` is
coordinate `i` (`i < 3*natoms`, atom `i/3`, Cartesian component `i%3`) of
replica `b`; `beadsQc` is the centroid configuration `beads.qc`
(= `beads.centroid.q`).  The fields `msqrt` (for `math.sqrt`), `dpot`
(for the shadow `ForceBeads` potential as a function of the shadow
configuration, per the spec's Shadow Evaluator: an independent force
evaluator bound to the same force model) and `h2abc` (the
box-matrix-to-lattice-parameters conversion) model external code outside
this module, hence they are abstract function fields. -/
structure PState where
  nbeads : ℕ
  natoms : ℕ
  beadsQ : ℕ → ℕ → ℚ
  beadsQc : ℕ → ℚ
  beadsKin : ℚ
  beadsKstress : Fin 3 → Fin 3 → ℚ
  cellV : ℚ
  cellKin : ℚ
  cellH : Fin 3 → Fin 3 → ℚ
  forcesF : ℕ → ℕ → ℚ
  forcesPot : ℚ
  forcesVir : Fin 3 → Fin 3 → ℚ
  ensembleTemp : ℚ
  fixcom : Bool
  econs : ℚ
  dt : ℚ
  step : ℕ
  fd_delta : ℚ
  kb : ℚ
  msqrt : ℚ → ℚ
  dpot : (ℕ → ℕ → ℚ) → ℚ
  dbeadsQ : ℕ → ℕ → ℚ
  h2abc : (Fin 3 → Fin 3 → ℚ) → ℚ × ℚ × ℚ × ℚ × ℚ × ℚ

/-- `Properties.get_kin` (line 153): `self.beads.kin/self.beads.nbeads`. -/
def get_kin (s : PState) : ℚ := s.beadsKin / s.nbeads

/-- `Properties.get_time` (line 158): `(1 + self.simul.step)*self.ensemble.dt`. -/
def get_time (s : PState) : ℚ := ((1 + s.step : ℕ) : ℚ) * s.dt

/-- `Properties.get_pot` (line 172): `self.forces.pot/self.beads.nbeads`. -/
def get_pot (s : PState) : ℚ := s.forcesPot / s.nbeads

/-- `Properties.get_temp` (line 177): the parenthesised degrees-of-freedom
count `3*natoms*nbeads - (3 if fixcom else 0)` is integer arithmetic in
Python, modelled in `ℤ` and then cast into the float (here `ℚ`) product. -/
def get_temp (s : PState) : ℚ :=
  s.beadsKin /
    ((1/2) * s.kb * (((3 * (s.natoms : ℤ) * (s.nbeads : ℤ) -
      (if s.fixcom then 3 else 0) : ℤ)) : ℚ) * s.nbeads)

/-- `Properties.get_econs` (line 182): `self.ensemble.econs/self.beads.nbeads`. -/
def get_econs (s : PState) : ℚ := s.econs / s.nbeads

/-- `Properties.get_stress` (line 187):
`(self.forces.vir + self.beads.kstress)/self.cell.V`, entrywise on the
3×3 tensors. -/
def get_stress (s : PState) : Fin 3 → Fin 3 → ℚ :=
  fun i j => (s.forcesVir i j + s.beadsKstress i j) / s.cellV

/-- `np.trace` on a 3×3 matrix: the sum of the diagonal entries. -/
def trace3 (m : Fin 3 → Fin 3 → ℚ) : ℚ := m 0 0 + m 1 1 + m 2 2

/-- `Properties.get_press` (line 192): `np.trace(self.stress)/3.0`, reading
the same `stress` node that backs the `stress_md.xx` output. -/
def get_press (s : PState) : ℚ := trace3 (get_stress s) / 3

/-- The anonymous compute function of the `stress_md.xx` registry entry
(line 130): `lambda : self.stress[0,0]`. -/
def scl_xx (s : PState) : ℚ := get_stress s 0 0

/-- One summand of `Properties.get_kincv` (line 209):
`np.dot(depstrip(self.beads.q[b]) - depstrip(self.beads.qc), depstrip(self.forces.f[b]))`,
a dot product over the flattened `3*natoms` coordinates of replica `b`. -/
def dotQ (s : PState) (b : ℕ) : ℚ :=
  ∑ i ∈ Finset.range (3 * s.natoms), (s.beadsQ b i - s.beadsQc i) * s.forcesF b i

/-- `Properties.get_kincv` (lines 204-212): the accumulation loop over
replicas, then `kcv *= -0.5/nbeads` (float division), then
`kcv += 0.5*Constants.kb*self.ensemble.temp*(3*self.beads.natoms)`. -/
def get_kincv (s : PState) : ℚ :=
  ((List.range s.nbeads).foldl (fun kcv b => kcv + dotQ s b) 0) * (-(1/2) / s.nbeads)
    + (1/2) * s.kb * s.ensembleTemp * (3 * s.natoms)

/-- One strided dot product of `Properties.get_kstresscv` (line 226):
`np.dot(q[b,i:na3:3] - qc[i:na3:3], depstrip(self.forces.f[b])[j:na3:3])` —
for each atom `a`, Cartesian component `i` of its displacement from the
centroid times Cartesian component `j` of its force. -/
def dotStride (s : PState) (b i j : ℕ) : ℚ :=
  ∑ a ∈ Finset.range s.natoms,
    (s.beadsQ b (3 * a + i) - s.beadsQc (3 * a + i)) * s.forcesF b (3 * a + j)

/-- The accumulation loop of `get_kstresscv` over replicas for a fixed
upper-triangle entry `(i, j)`. -/
def kstAccum (s : PState) (i j : ℕ) : ℚ :=
  (List.range s.nbeads).foldl (fun acc b => acc + dotStride s b i j) 0

/-- The scalar `-1/self.beads.nbeads` of line 228.  Both operands are Python
ints, so in Python 2 this is *floor* division (`Int.fdiv`): it evaluates to
`-1` for every `nbeads ≥ 1`, not to `-1/nbeads`. -/
def pyNegOneDiv (n : ℕ) : ℚ := ((Int.fdiv (-1) (n : ℤ) : ℤ) : ℚ)

/-- `Properties.get_kstresscv` (lines 214-230): entries with `i ≤ j` hold the
accumulated strided virial, the rest stay `0`; the whole tensor is scaled by
the (integer-division) scalar `-1/nbeads`; then
`kst[i,i] += Constants.kb*self.ensemble.temp*(3*self.beads.natoms)`. -/
def get_kstresscv (s : PState) (i j : Fin 3) : ℚ :=
  (if (i : ℕ) ≤ (j : ℕ) then kstAccum s i j else 0) * pyNegOneDiv s.nbeads
    + (if i = j then s.kb * s.ensembleTemp * (3 * s.natoms) else 0)

/-- Modelled from the spec: the claimed value of the centroid-virial kinetic
stress entry, `−(1/nbeads) × Σ_replicas dot(strided displacement, strided
force)` with `+ k_B·T·(3·natoms)` on the diagonal (spec §4.3).  Stated for
comparison with `get_kstresscv`, which is translated from the code. -/
def kstresscv_spec (s : PState) (i j : Fin 3) : ℚ :=
  (-(1 / (s.nbeads : ℚ))) * ∑ b ∈ Finset.range s.nbeads, dotStride s b i j
    + (if i = j then s.kb * s.ensembleTemp * (3 * s.natoms) else 0)

/-- `Properties.get_stresscv` (line 197):
`(self.forces.vir + self.kstress_cv)/self.cell.V`. -/
def get_stresscv (s : PState) : Fin 3 → Fin 3 → ℚ :=
  fun i j => (s.forcesVir i j + get_kstresscv s i j) / s.cellV

/-- `Properties.get_presscv` (line 202): `np.trace(self.stress_cv)/3.0`. -/
def get_presscv (s : PState) : ℚ := trace3 (get_stresscv s) / 3

/-- The anonymous compute function of the `stress_cv.xx` registry entry
(line 140): `lambda : self.stress_cv[0,0]`. -/
def scv_xx (s : PState) : ℚ := get_stresscv s 0 0

/-- `Properties.get_cell_params` (lines 261-265): unpack `h2abc(self.cell.h)`
into `[a, b, c, alpha, beta, gamma]`. -/
def get_cell_params (s : PState) : List ℚ :=
  [(s.h2abc s.cellH).1, (s.h2abc s.cellH).2.1, (s.h2abc s.cellH).2.2.1,
   (s.h2abc s.cellH).2.2.2.1, (s.h2abc s.cellH).2.2.2.2.1, (s.h2abc s.cellH).2.2.2.2.2]

/-- Error outcomes of a property computation.  `keyError` models the Python
`KeyError` (a `LookupError` subclass) raised by `property_dict[key]` on an
absent key; `divZeroKyama` and `divZeroCheck` model the `ZeroDivisionError`
raised by the float divisions `/(2*dbeta)` (line 250) and `/(v0*2)`
(line 252) of `get_kinyama`; `fuelOut` is the reification of
non-termination of the `while True` loop (never reached when enough fuel is
supplied). -/
inductive PErr where
  | keyError
  | divZeroKyama
  | divZeroCheck
  | fuelOut
deriving DecidableEq

/-- The slice of the state read by `get_kinyama`'s loop: everything except
the shadow configuration itself (which the loop overwrites before reading). -/
structure YamaEnv where
  nbeads : ℕ
  natoms : ℕ
  beadsQ : ℕ → ℕ → ℚ
  beadsQc : ℕ → ℚ
  ensembleTemp : ℚ
  kb : ℚ
  fd_delta : ℚ
  msqrt : ℚ → ℚ
  dpot : (ℕ → ℕ → ℚ) → ℚ

/-- The environment of `get_kinyama` extracted from a bound state. -/
def yamaEnv (s : PState) : YamaEnv :=
  { nbeads := s.nbeads, natoms := s.natoms, beadsQ := s.beadsQ,
    beadsQc := s.beadsQc, ensembleTemp := s.ensembleTemp, kb := s.kb,
    fd_delta := s.fd_delta, msqrt := s.msqrt, dpot := s.dpot }

/-- The shadow configuration written by the per-replica loops of
`get_kinyama` (lines 242-243 and 246-247):
`self.dbeads[b].q = self.beads.centroid.q*(1.0 - sc) + sc*self.beads[b].q`
for the scaling factor `sc` (`splus` or `sminus`). -/
def shadowConf (e : YamaEnv) (sc : ℚ) : ℕ → ℕ → ℚ :=
  fun b i => e.beadsQc i * (1 - sc) + sc * e.beadsQ b i

/-- `vplus = self.dforces.pot/self.beads.nbeads` (line 244) after the shadow
ensemble has been set with `splus = math.sqrt(1.0 + dbeta)` (line 239). -/
def vplusOf (e : YamaEnv) (dbeta : ℚ) : ℚ :=
  e.dpot (shadowConf e (e.msqrt (1 + dbeta))) / e.nbeads

/-- `vminus = self.dforces.pot/self.beads.nbeads` (line 248) after the shadow
ensemble has been set with `sminus = math.sqrt(1.0 - dbeta)` (line 240). -/
def vminusOf (e : YamaEnv) (dbeta : ℚ) : ℚ :=
  e.dpot (shadowConf e (e.msqrt (1 - dbeta))) / e.nbeads

/-- The estimate of lines 250-251:
`kyama = ((1.0 + dbeta)*vplus - (1.0 - dbeta)*vminus)/(2*dbeta) - v0`
followed by `kyama += 0.5*Constants.kb*self.ensemble.temp*(3*natoms)`. -/
def kyamaOf (e : YamaEnv) (v0 dbeta : ℚ) : ℚ :=
  ((1 + dbeta) * vplusOf e dbeta - (1 - dbeta) * vminusOf e dbeta) / (2 * dbeta) - v0
    + (1/2) * e.kb * e.ensembleTemp * (3 * e.natoms)

/-- The `while True` loop of `get_kinyama` (lines 238-257), as a fuel-indexed
recursion; one unit of fuel is one execution of the loop body.  The third
argument threads the shadow configuration `dbeads.q`, the only state the
body mutates; the body overwrites it (to the plus configuration, then the
minus configuration) before reading it, so the incoming value is dead.
The `dbeta = 0` test models the `ZeroDivisionError` of the float division
`/(2*dbeta)` on line 250, and the `v0 = 0` test (reached only when
`fd_delta < 0`, thanks to Python's short-circuit `and`) models the
`ZeroDivisionError` of `/(v0*2)` on line 252.  When the stability criterion
fails and `dbeta > MINFID`, `dbeta` is halved (`dbeta *= 0.5`, line 253) and
the loop repeats; otherwise `kyama` is returned. -/
def yamaLoopS (e : YamaEnv) (v0 : ℚ) :
    ℕ → ℚ → (ℕ → ℕ → ℚ) → Except PErr ℚ × (ℕ → ℕ → ℚ)
  | 0, _, d => (.error .fuelOut, d)
  | fuel+1, dbeta, _ =>
    let dminus := shadowConf e (e.msqrt (1 - dbeta))
    if dbeta = 0 then (.error .divZeroKyama, dminus)
    else if e.fd_delta < 0 then
      if v0 = 0 then (.error .divZeroCheck, dminus)
      else if DEFAULT_FDERROR < |(vplusOf e dbeta + vminusOf e dbeta) / (v0 * 2) - 1| ∧
          DEFAULT_MINFID < dbeta then
        yamaLoopS e v0 fuel (dbeta * (1/2)) dminus
      else (.ok (kyamaOf e v0 dbeta), dminus)
    else (.ok (kyamaOf e v0 dbeta), dminus)

/-- Fuel sufficient for the halving loop: one more than the number of times
`|fd_delta|` can be halved before falling to `DEFAULT_MINFID` or below. -/
def yamaFuel (s : PState) : ℕ :=
  Nat.clog 2 (Int.toNat ⌈|s.fd_delta| / DEFAULT_MINFID⌉) + 1

/-- `Properties.get_kinyama` (lines 232-259) with its single side effect made
explicit: `dbeta` starts at `abs(self.fd_delta)` (line 235), `v0` is the
`pot` property (line 237, i.e. `forces.pot/nbeads`), and the only mutation
is to the shadow configuration `dbeads.q`, returned in the updated state. -/
def get_kinyamaS (s : PState) : Except PErr ℚ × PState :=
  let r := yamaLoopS (yamaEnv s) (get_pot s) (yamaFuel s) |s.fd_delta| s.dbeadsQ
  (r.1, { s with dbeadsQ := r.2 })

/-- The value computed by `Properties.get_kinyama`. -/
def get_kinyama (s : PState) : Except PErr ℚ := (get_kinyamaS s).1

/-- A property value: a scalar, or the list produced by `get_cell_params`. -/
inductive PVal where
  | scalar (x : ℚ)
  | vec (l : List ℚ)
deriving DecidableEq

/-- The `property_dict` built by `Properties.bind` (lines 110-148), in
insertion order, each name paired with the compute function of the node the
name is bound to. -/
def property_dict : List (String × (PState → Except PErr PVal)) :=
  [("time", fun s => .ok (.scalar (get_time s))),
   ("conserved", fun s => .ok (.scalar (get_econs s))),
   ("kinetic_md", fun s => .ok (.scalar (get_kin s))),
   ("potential", fun s => .ok (.scalar (get_pot s))),
   ("temperature", fun s => .ok (.scalar (get_temp s))),
   ("V", fun s => .ok (.scalar s.cellV)),
   ("cell_parameters", fun s => .ok (.vec (get_cell_params s))),
   ("stress_md.xx", fun s => .ok (.scalar (scl_xx s))),
   ("pressure_md", fun s => .ok (.scalar (get_press s))),
   ("kinetic_cv", fun s => .ok (.scalar (get_kincv s))),
   ("stress_cv.xx", fun s => .ok (.scalar (scv_xx s))),
   ("pressure_cv", fun s => .ok (.scalar (get_presscv s))),
   ("kinetic_yamamoto", fun s => (get_kinyama s).map .scalar)]

/-- `Properties.__getitem__` (lines 160-167):
`return self.property_dict[key].get()`; an absent key raises `KeyError`
(a `LookupError`), a present key evaluates the bound node. -/
def getItem (key : String) (s : PState) : Except PErr PVal :=
  match property_dict.find? (fun p => p.1 == key) with
  | none => .error .keyError
  | some p => p.2 s

/-- The raw reactive upstream values referenced by the dependency lists in
`Properties.bind`. -/
inductive Source where
  | simulStep
  | ensembleDt
  | ensembleEcons
  | beadsKin
  | cellKin
  | forcesPot
  | beadsQ
  | ensembleTemp
  | cellV
  | cellH
  | beadsKstress
  | forcesVir
  | forcesF
deriving DecidableEq

/-- The dependency list declared for the `kin` node (line 116):
`[dget(self.beads,"kin"), dget(self.cell,"kin")]`. -/
def kinDeps : List Source := [.beadsKin, .cellKin]

/-- The dependency list declared for the `kin_yama` node (line 147):
`[dget(self.beads,"q"), dget(self.ensemble,"temp")]`. -/
def kinYamaDeps : List Source := [.beadsQ, .ensembleTemp]

theorem foldl_add_eq_sum (f : ℕ → ℚ) (n : ℕ) :
    (List.range n).foldl (fun a b => a + f b) 0 = ∑ b ∈ Finset.range n, f b := by
  induction n with
  | zero => rfl
  | succ n ih =>
    rw [List.range_succ, List.foldl_append, Finset.sum_range_succ, ih]
    rfl

/-- C7: the centroid-virial kinetic energy `get_kincv` equals
`−(1/(2·nbeads)) · Σ_replicas dot(q_replica − q_c, f_replica)
 + (1/2)·k_B·T·(3·natoms)`. -/
theorem kincv_formula (s : PState) :
    get_kincv s =
      -(1 / (2 * (s.nbeads : ℚ))) *
        (∑ b ∈ Finset.range s.nbeads,
          ∑ i ∈ Finset.range (3 * s.natoms),
            (s.beadsQ b i - s.beadsQc i) * s.forcesF b i)
        + (1/2) * s.kb * s.ensembleTemp * (3 * s.natoms) := by
  unfold get_kincv
  rw [foldl_add_eq_sum (dotQ s)]
  unfold dotQ
  rw [neg_div, div_div]
  ring

/-- C6: the temperature observable is
`beads.kin / (0.5·k_B·(3·natoms·nbeads − (3 if fixcom else 0))·nbeads)`;
with k_B=1, natoms=2, nbeads=4, kin=10 it is 10/48 (fixcom false) and
10/42 (fixcom true). -/
theorem temp_formula :
    (∀ s : PState, get_temp s =
       s.beadsKin / ((1/2) * s.kb *
         (3 * (s.natoms : ℚ) * (s.nbeads : ℚ) - (if s.fixcom then 3 else 0)) *
           s.nbeads)) ∧
    (∀ s : PState, s.kb = 1 → s.natoms = 2 → s.nbeads = 4 → s.beadsKin = 10 →
       (s.fixcom = false → get_temp s = 10 / 48) ∧
       (s.fixcom = true → get_temp s = 10 / 42)) := by
  constructor
  · intro s
    unfold get_temp
    cases hf : s.fixcom
    · norm_num
    · norm_num
  · intro s h1 h2 h3 h4
    constructor <;> intro hf <;> simp [get_temp, h1, h2, h3, h4, hf] <;> norm_num

/-- C8: the classical stress observable is
`(force_virial + kinetic_stress_classical)/volume`, and the pressure
observable is `trace(S)/3` of the very stress tensor `S` that the
`stress_md.xx` entry exposes. -/
theorem stress_press_trace (s : PState) :
    (∀ i j, get_stress s i j = (s.forcesVir i j + s.beadsKstress i j) / s.cellV) ∧
    get_press s = (∑ i : Fin 3, get_stress s i i) / 3 ∧
    scl_xx s = get_stress s 0 0 := by
  refine ⟨fun i j => rfl, ?_, rfl⟩
  rw [Fin.sum_univ_three]
  rfl

/-- Failing input for the Python-2 integer-division defect in
`get_kstresscv`: two replicas, one atom, displacement-from-centroid
`(1,0,0)` and force `(0,3,0)` on each replica, so each strided dot product
for entry `(0,1)` is `3` and the accumulated sum is `6`. -/
def cs1 : PState :=
  { nbeads := 2, natoms := 1,
    beadsQ := fun _ k => if k = 0 then 1 else 0,
    beadsQc := fun _ => 0,
    beadsKin := 0, beadsKstress := fun _ _ => 0,
    cellV := 1, cellKin := 0, cellH := fun _ _ => 0,
    forcesF := fun _ k => if k = 1 then 3 else 0,
    forcesPot := 0, forcesVir := fun _ _ => 0,
    ensembleTemp := 0, fixcom := false, econs := 0, dt := 1, step := 0,
    fd_delta := -DEFAULT_FINDIFF, kb := 1,
    msqrt := fun _ => 0, dpot := fun _ => 0, dbeadsQ := fun _ _ => 0,
    h2abc := fun _ => (0, 0, 0, 0, 0, 0) }

/-- C1: at `nbeads = 2` the code multiplies the accumulated strided virial
by the Python-2 integer quotient `-1/nbeads = -1` instead of the rational
`−(1/nbeads) = −1/2` the spec states: entry `(0,1)` comes out `−6` where the
spec formula gives `−3`. -/
theorem kstresscv_integer_division_bug :
    get_kstresscv cs1 0 1 = -6 ∧ kstresscv_spec cs1 0 1 = -3 ∧
      get_kstresscv cs1 0 1 ≠ kstresscv_spec cs1 0 1 := by
  have hdot : ∀ b, dotStride cs1 b 0 1 = 3 := by
    intro b
    unfold dotStride
    rw [show cs1.natoms = 1 from rfl, Finset.sum_range_one]
    norm_num [cs1]
  have hacc : kstAccum cs1 0 1 = 6 := by
    unfold kstAccum
    rw [foldl_add_eq_sum (fun b => dotStride cs1 b 0 1),
      show cs1.nbeads = 2 from rfl, Finset.sum_range_succ, Finset.sum_range_one,
      hdot, hdot]
    norm_num
  have hneg1 : pyNegOneDiv cs1.nbeads = -1 := by
    unfold pyNegOneDiv
    rw [show Int.fdiv (-1) ((cs1.nbeads : ℕ) : ℤ) = -1 from rfl]
    norm_num
  have h1 : get_kstresscv cs1 0 1 = -6 := by
    unfold get_kstresscv
    rw [if_pos (by decide), if_neg (by decide), hneg1]
    rw [show (((0 : Fin 3) : ℕ)) = 0 from rfl, show (((1 : Fin 3) : ℕ)) = 1 from rfl,
      hacc]
    norm_num
  have h2 : kstresscv_spec cs1 0 1 = -3 := by
    unfold kstresscv_spec
    rw [if_neg (by decide)]
    rw [show cs1.nbeads = 2 from rfl, Finset.sum_range_succ, Finset.sum_range_one,
      show (((0 : Fin 3) : ℕ)) = 0 from rfl, show (((1 : Fin 3) : ℕ)) = 1 from rfl,
      hdot, hdot]
    norm_num
  refine ⟨h1, h2, ?_⟩
  rw [h1, h2]
  norm_num

theorem yamaLoopS_succ (e : YamaEnv) (v0 : ℚ) (fuel : ℕ) (dbeta : ℚ)
    (d : ℕ → ℕ → ℚ) :
    yamaLoopS e v0 (fuel + 1) dbeta d =
      (if dbeta = 0 then
        (Except.error PErr.divZeroKyama, shadowConf e (e.msqrt (1 - dbeta)))
      else if e.fd_delta < 0 then
        if v0 = 0 then
          (Except.error PErr.divZeroCheck, shadowConf e (e.msqrt (1 - dbeta)))
        else if DEFAULT_FDERROR <
            |(vplusOf e dbeta + vminusOf e dbeta) / (v0 * 2) - 1| ∧
            DEFAULT_MINFID < dbeta then
          yamaLoopS e v0 fuel (dbeta * (1/2)) (shadowConf e (e.msqrt (1 - dbeta)))
        else (Except.ok (kyamaOf e v0 dbeta), shadowConf e (e.msqrt (1 - dbeta)))
      else (Except.ok (kyamaOf e v0 dbeta), shadowConf e (e.msqrt (1 - dbeta)))) :=
  rfl

theorem yamaLoop_break_of_nonneg (e : YamaEnv) (v0 : ℚ) (n : ℕ) (dbeta : ℚ)
    (d : ℕ → ℕ → ℚ) (h0 : ¬ dbeta = 0) (hfd : ¬ e.fd_delta < 0) :
    yamaLoopS e v0 (n + 1) dbeta d =
      (Except.ok (kyamaOf e v0 dbeta), shadowConf e (e.msqrt (1 - dbeta))) := by
  simp only [yamaLoopS]
  rw [if_neg h0, if_neg hfd]

theorem yamaLoop_step_continue (e : YamaEnv) (v0 : ℚ) (n : ℕ) (dbeta : ℚ)
    (d : ℕ → ℕ → ℚ) (h0 : ¬ dbeta = 0) (hfd : e.fd_delta < 0) (hv : ¬ v0 = 0)
    (hchk : DEFAULT_FDERROR < |(vplusOf e dbeta + vminusOf e dbeta) / (v0 * 2) - 1| ∧
      DEFAULT_MINFID < dbeta) :
    yamaLoopS e v0 (n + 1) dbeta d =
      yamaLoopS e v0 n (dbeta * (1/2)) (shadowConf e (e.msqrt (1 - dbeta))) := by
  simp only [yamaLoopS]
  rw [if_neg h0, if_pos hfd, if_neg hv, if_pos hchk]

theorem yamaLoop_terminates_of_small (e : YamaEnv) (v0 : ℚ) :
    ∀ (n : ℕ) (dbeta : ℚ) (d : ℕ → ℕ → ℚ), dbeta ≤ DEFAULT_MINFID * 2 ^ n →
      (yamaLoopS e v0 (n + 1) dbeta d).1 ≠ Except.error PErr.fuelOut := by
  intro n
  induction n with
  | zero =>
    intro dbeta d hb
    rw [yamaLoopS_succ]
    split_ifs with h0 hneg hv hchk
    · simp
    · simp
    · exact absurd hchk.2 (not_lt.mpr (by simpa using hb))
    · simp
    · simp
  | succ n ih =>
    intro dbeta d hb
    rw [yamaLoopS_succ]
    split_ifs with h0 hneg hv hchk
    · simp
    · simp
    · refine ih (dbeta * (1/2)) _ ?_
      rw [pow_succ] at hb
      linarith
    · simp
    · simp

/-- C2 (amended): with FINDIFF = 1e-5 and MINFID = 1e-12 the halving loop of
`get_kinyama` terminates within `⌈log2(1e-5/1e-12)⌉ = 24` halvings, i.e.
within 25 loop-body iterations, regardless of the stability-check outcome:
25 units of fuel can never run out. -/
theorem kinyama_termination_within_25 (e : YamaEnv) (v0 : ℚ) (d : ℕ → ℕ → ℚ) :
    (yamaLoopS e v0 25 DEFAULT_FINDIFF d).1 ≠ Except.error PErr.fuelOut :=
  yamaLoop_terminates_of_small e v0 24 DEFAULT_FINDIFF d
    (by norm_num [DEFAULT_FINDIFF, DEFAULT_MINFID])

/-- An environment whose stability check never clears: the shadow potential
is constantly 4 while the estimator is run with `v0 = 2`, so the check ratio
`(V₊+V₋)/(2·V0) = 2` keeps `|2 − 1| > FDERROR` at every displacement. -/
def yamaEnvEx : YamaEnv :=
  { nbeads := 1, natoms := 0, beadsQ := fun _ _ => 0, beadsQc := fun _ => 0,
    ensembleTemp := 0, kb := 1, fd_delta := -DEFAULT_FINDIFF,
    msqrt := fun _ => 0, dpot := fun _ => 4 }

theorem yamaLoopEx_runs_out :
    ∀ (n : ℕ) (dbeta : ℚ) (d : ℕ → ℕ → ℚ), DEFAULT_MINFID < dbeta * (1/2) ^ n →
      (yamaLoopS yamaEnvEx 2 n dbeta d).1 = Except.error PErr.fuelOut := by
  intro n
  induction n with
  | zero => intro dbeta d h; rfl
  | succ n ih =>
    intro dbeta d h
    have hp2 : (0 : ℚ) < (1/2) ^ (n + 1) := pow_pos (by norm_num) _
    have hm : (0 : ℚ) < DEFAULT_MINFID := by norm_num [DEFAULT_MINFID]
    have hpos : 0 < dbeta := by nlinarith
    have hple : ((1:ℚ)/2) ^ (n + 1) ≤ 1 := pow_le_one₀ (by norm_num) (by norm_num)
    have hbig : DEFAULT_MINFID < dbeta := by nlinarith
    have hvp : vplusOf yamaEnvEx dbeta = 4 := by
      simp [vplusOf, yamaEnvEx]
    have hvm : vminusOf yamaEnvEx dbeta = 4 := by
      simp [vminusOf, yamaEnvEx]
    rw [yamaLoop_step_continue yamaEnvEx 2 n dbeta d (ne_of_gt hpos)
      (by norm_num [yamaEnvEx, DEFAULT_FINDIFF]) (by norm_num)
      ⟨by rw [hvp, hvm]; norm_num [DEFAULT_FDERROR], hbig⟩]
    refine ih (dbeta * (1/2)) _ ?_
    rw [pow_succ] at h
    calc DEFAULT_MINFID < dbeta * ((1/2) ^ n * (1/2)) := h
      _ = dbeta * (1/2) * (1/2) ^ n := by ring

/-- C2 counterexample: at the adversarial state above, the loop started at
FINDIFF = 1e-5 is still running after 17 iterations (17 units of fuel run
out), so it does not terminate within 17 iterations as claimed. -/
theorem kinyama_17_iterations_insufficient :
    (yamaLoopS yamaEnvEx 2 17 DEFAULT_FINDIFF (fun _ _ => 0)).1 =
      Except.error PErr.fuelOut :=
  yamaLoopEx_runs_out 17 DEFAULT_FINDIFF (fun _ _ => 0)
    (by norm_num [DEFAULT_FINDIFF, DEFAULT_MINFID])

/-- C4: on every loop-body execution with displacement `dbeta > 0` the shadow
configuration set for every replica is `centroid·(1−s) + s·replica` with
`s = sqrt(1±dbeta)`, each shadow potential is divided by `nbeads`, and
whenever the loop returns an estimate it is exactly
`((1+δ)·V₊ − (1−δ)·V₋)/(2δ) − V0 + (1/2)·k_B·T·(3·natoms)` at the current
displacement `δ = dbeta/2^j` (the start value after `j` halvings), the final
shadow configuration being the minus-perturbed one at that same `δ`. -/
theorem yamamoto_step_formulas :
    (∀ (e : YamaEnv) (sc : ℚ) (b i : ℕ),
        shadowConf e sc b i = e.beadsQc i * (1 - sc) + sc * e.beadsQ b i) ∧
    (∀ (e : YamaEnv) (v0 dbeta : ℚ),
        kyamaOf e v0 dbeta =
          ((1 + dbeta) * (e.dpot (shadowConf e (e.msqrt (1 + dbeta))) / e.nbeads)
            - (1 - dbeta) * (e.dpot (shadowConf e (e.msqrt (1 - dbeta))) / e.nbeads))
              / (2 * dbeta) - v0
            + (1/2) * e.kb * e.ensembleTemp * (3 * e.natoms)) ∧
    (∀ (e : YamaEnv) (v0 : ℚ) (fuel : ℕ) (dbeta : ℚ) (d : ℕ → ℕ → ℚ)
        (k : ℚ) (dfin : ℕ → ℕ → ℚ), 0 < dbeta →
        yamaLoopS e v0 fuel dbeta d = (Except.ok k, dfin) →
        ∃ j : ℕ, 0 < dbeta / 2 ^ j ∧ k = kyamaOf e v0 (dbeta / 2 ^ j) ∧
          dfin = shadowConf e (e.msqrt (1 - dbeta / 2 ^ j))) := by
  refine ⟨fun e sc b i => rfl, fun e v0 dbeta => rfl, ?_⟩
  intro e v0 fuel
  induction fuel with
  | zero =>
    intro dbeta d k dfin hd h
    simp only [yamaLoopS, Prod.mk.injEq] at h
    exact absurd h.1 (by simp)
  | succ n ih =>
    intro dbeta d k dfin hd h
    rw [yamaLoopS_succ] at h
    split_ifs at h with h0 hneg hv hchk
    · exact absurd h0 (ne_of_gt hd)
    · simp only [Prod.mk.injEq] at h
      exact absurd h.1 (by simp)
    · obtain ⟨j, hj1, hj2, hj3⟩ :=
        ih (dbeta * (1/2)) _ k dfin (mul_pos hd (by norm_num)) h
      have heq : dbeta * (1/2) / 2 ^ j = dbeta / 2 ^ (j + 1) := by
        rw [pow_succ]
        ring
      refine ⟨j + 1, ?_, ?_, ?_⟩
      · rw [← heq]; exact hj1
      · rw [← heq]; exact hj2
      · rw [← heq]; exact hj3
    · simp only [Prod.mk.injEq, Except.ok.injEq] at h
      refine ⟨0, by simpa using hd, ?_, ?_⟩
      · rw [pow_zero, div_one]; exact h.1.symm
      · rw [pow_zero, div_one]; exact h.2.symm
    · simp only [Prod.mk.injEq, Except.ok.injEq] at h
      refine ⟨0, by simpa using hd, ?_, ?_⟩
      · rw [pow_zero, div_one]; exact h.1.symm
      · rw [pow_zero, div_one]; exact h.2.symm

/-- An environment in which the estimator is evaluated non-adaptively
(`fd_delta = 1/2 > 0`), used to instantiate the step theorem. -/
def c4w : YamaEnv :=
  { nbeads := 1, natoms := 1, beadsQ := fun _ _ => 0, beadsQc := fun _ => 0,
    ensembleTemp := 0, kb := 1, fd_delta := 1/2, msqrt := fun _ => 0,
    dpot := fun _ => 0 }

theorem yamamoto_step_formulas_witness :
    ∃ j : ℕ, 0 < (1/2 : ℚ) / 2 ^ j ∧
      kyamaOf c4w 0 ((1/2 : ℚ)) = kyamaOf c4w 0 ((1/2 : ℚ) / 2 ^ j) ∧
      shadowConf c4w (c4w.msqrt (1 - (1/2 : ℚ))) =
        shadowConf c4w (c4w.msqrt (1 - (1/2 : ℚ) / 2 ^ j)) :=
  yamamoto_step_formulas.2.2 c4w 0 1 (1/2) (fun _ _ => 0)
    (kyamaOf c4w 0 (1/2)) (shadowConf c4w (c4w.msqrt (1 - 1/2)))
    (by norm_num)
    (yamaLoop_break_of_nonneg c4w 0 0 (1/2) (fun _ _ => 0) (by norm_num)
      (by norm_num [c4w]))

/-- C5: a `get_kinyama` call mutates only the shadow configuration: the live
replica configurations, the centroid and the configured displacement
`fd_delta` are unchanged in the resulting state, and — since the call
restarts from `|fd_delta|` and overwrites the shadow configuration before
reading it — an immediately repeated call returns the same value. -/
theorem kinyama_frame (s : PState) :
    ((get_kinyamaS s).2).beadsQ = s.beadsQ ∧
    ((get_kinyamaS s).2).beadsQc = s.beadsQc ∧
    ((get_kinyamaS s).2).fd_delta = s.fd_delta ∧
    get_kinyama ((get_kinyamaS s).2) = get_kinyama s := by
  refine ⟨rfl, rfl, rfl, ?_⟩
  have hinit : ∀ (e : YamaEnv) (v0 : ℚ) (fuel : ℕ) (dbeta : ℚ)
      (d d' : ℕ → ℕ → ℚ),
      (yamaLoopS e v0 fuel dbeta d).1 = (yamaLoopS e v0 fuel dbeta d').1 := by
    intro e v0 fuel dbeta d d'
    cases fuel
    · rfl
    · rfl
  exact hinit (yamaEnv s) (get_pot s) (yamaFuel s) |s.fd_delta| _ _

theorem yamaLoop_no_divZeroCheck (e : YamaEnv) (v0 : ℚ) (hv : v0 ≠ 0) :
    ∀ (fuel : ℕ) (dbeta : ℚ) (d : ℕ → ℕ → ℚ),
      (yamaLoopS e v0 fuel dbeta d).1 ≠ Except.error PErr.divZeroCheck := by
  intro fuel
  induction fuel with
  | zero =>
    intro dbeta d
    simp [yamaLoopS]
  | succ n ih =>
    intro dbeta d
    rw [yamaLoopS_succ]
    split_ifs with h0 hneg hchk
    · simp
    · exact ih _ _
    · simp
    · simp

/-- C10: when adaptation is enabled (`fd_delta < 0`) and the per-replica
unperturbed potential `V0` is exactly zero, the stability check's division
`(vplus+vminus)/(v0*2)` raises a division-by-zero error instead of
returning an estimate; when `V0 ≠ 0` that error is unreachable. -/
theorem kinyama_divzero (s : PState) :
    (s.fd_delta < 0 → get_pot s = 0 →
      get_kinyama s = Except.error PErr.divZeroCheck) ∧
    (get_pot s ≠ 0 → get_kinyama s ≠ Except.error PErr.divZeroCheck) := by
  constructor
  · intro hneg hp
    have habs : ¬ |s.fd_delta| = 0 := by
      simp only [abs_eq_zero]
      exact ne_of_lt hneg
    show (yamaLoopS (yamaEnv s) (get_pot s)
      (Nat.clog 2 (Int.toNat ⌈|s.fd_delta| / DEFAULT_MINFID⌉) + 1)
      |s.fd_delta| s.dbeadsQ).1 = _
    rw [yamaLoopS_succ, if_neg habs,
      if_pos (show (yamaEnv s).fd_delta < 0 from hneg), if_pos hp]
  · intro hp
    exact yamaLoop_no_divZeroCheck (yamaEnv s) (get_pot s) hp (yamaFuel s)
      |s.fd_delta| s.dbeadsQ

/-- A state with adaptation enabled and identically vanishing physical
potential, so `V0 = 0`. -/
def c10a : PState :=
  { nbeads := 1, natoms := 1, beadsQ := fun _ _ => 0, beadsQc := fun _ => 0,
    beadsKin := 0, beadsKstress := fun _ _ => 0, cellV := 1, cellKin := 0,
    cellH := fun _ _ => 0, forcesF := fun _ _ => 0, forcesPot := 0,
    forcesVir := fun _ _ => 0, ensembleTemp := 0, fixcom := false, econs := 0,
    dt := 1, step := 0, fd_delta := -DEFAULT_FINDIFF, kb := 1,
    msqrt := fun _ => 0, dpot := fun _ => 0, dbeadsQ := fun _ _ => 0,
    h2abc := fun _ => (0, 0, 0, 0, 0, 0) }

theorem kinyama_divzero_witness :
    get_kinyama c10a = Except.error PErr.divZeroCheck ∧
    get_kinyama { c10a with forcesPot := 3 } ≠ Except.error PErr.divZeroCheck :=
  ⟨(kinyama_divzero c10a).1 (by norm_num [c10a, DEFAULT_FINDIFF])
      (by simp [get_pot, c10a]),
   (kinyama_divzero { c10a with forcesPot := 3 }).2
      (by simp [get_pot, c10a])⟩

/-- A state evaluated non-adaptively (`fd_delta = 1/2 > 0`) with a constant
shadow potential, used to exhibit the dependence of `get_kinyama` on
`forces.pot` (read through the `pot` property as `v0`). -/
def c3A : PState :=
  { nbeads := 1, natoms := 1, beadsQ := fun _ _ => 0, beadsQc := fun _ => 0,
    beadsKin := 0, beadsKstress := fun _ _ => 0, cellV := 1, cellKin := 0,
    cellH := fun _ _ => 0, forcesF := fun _ _ => 0, forcesPot := 1,
    forcesVir := fun _ _ => 0, ensembleTemp := 0, fixcom := false, econs := 0,
    dt := 1, step := 0, fd_delta := 1/2, kb := 1, msqrt := fun _ => 0,
    dpot := fun _ => 1, dbeadsQ := fun _ _ => 0,
    h2abc := fun _ => (0, 0, 0, 0, 0, 0) }

/-- C3: the declared dependency lists are not the exact read sets.  The
`kin` node declares `cell.kin` although `get_kin` never reads it (its value
is invariant under any change of `cellKin`), and the `kin_yama` node does
not declare `forces.pot` although `get_kinyama` reads it (two states that
differ only in `forcesPot` give different estimates). -/
theorem node_dependency_mismatch :
    Source.cellKin ∈ kinDeps ∧
    (∀ (s : PState) (c : ℚ), get_kin { s with cellKin := c } = get_kin s) ∧
    Source.forcesPot ∉ kinYamaDeps ∧
    get_kinyama c3A ≠ get_kinyama { c3A with forcesPot := 2 } := by
  refine ⟨by decide, fun s c => rfl, by decide, ?_⟩
  have hstep : ∀ (s : PState), ¬ s.fd_delta < 0 → ¬ |s.fd_delta| = 0 →
      get_kinyama s =
        Except.ok (kyamaOf (yamaEnv s) (get_pot s) |s.fd_delta|) := by
    intro s hfd habs
    show (yamaLoopS (yamaEnv s) (get_pot s)
      (Nat.clog 2 (Int.toNat ⌈|s.fd_delta| / DEFAULT_MINFID⌉) + 1)
      |s.fd_delta| s.dbeadsQ).1 = _
    rw [yamaLoop_break_of_nonneg (yamaEnv s) (get_pot s) _ _ _ habs hfd]
  have habs2 : |(1/2 : ℚ)| = 1/2 := abs_of_pos (by norm_num)
  have hA : kyamaOf (yamaEnv c3A) (get_pot c3A) |c3A.fd_delta| = 0 := by
    simp only [kyamaOf, vplusOf, vminusOf, yamaEnv, get_pot, c3A, habs2]
    norm_num
  have hB : kyamaOf (yamaEnv { c3A with forcesPot := 2 })
      (get_pot { c3A with forcesPot := 2 })
      |({ c3A with forcesPot := 2 } : PState).fd_delta| = -1 := by
    simp only [kyamaOf, vplusOf, vminusOf, yamaEnv, get_pot, c3A, habs2]
    norm_num
  rw [hstep c3A (by norm_num [c3A]) (by norm_num [c3A]),
    hstep { c3A with forcesPot := 2 } (by norm_num [c3A]) (by norm_num [c3A]),
    hA, hB]
  intro hcontr
  exact absurd (Except.ok.inj hcontr) (by norm_num)

/-- C9: `__getitem__` fails with the `LookupError`-kind `keyError` exactly on
keys absent from the name→node mapping, and on a present key it returns the
value of the bound node's compute function. -/
theorem getitem_lookup (key : String) (s : PState) :
    (key ∉ property_dict.map Prod.fst →
      getItem key s = Except.error PErr.keyError) ∧
    (∀ f, (key, f) ∈ property_dict → getItem key s = f s) := by
  constructor
  · intro hk
    unfold getItem
    have hnone : property_dict.find? (fun p => p.1 == key) = none := by
      rw [List.find?_eq_none]
      intro p hp
      simp only [beq_iff_eq]
      intro hpe
      exact hk (hpe ▸ List.mem_map_of_mem Prod.fst hp)
    rw [hnone]
  · intro f hf
    unfold property_dict at hf
    fin_cases hf <;> rfl

theorem getitem_lookup_witness :
    getItem "bogus" cs1 = Except.error PErr.keyError ∧
    getItem "potential" cs1 = Except.ok (PVal.scalar (get_pot cs1)) :=
  ⟨(getitem_lookup "bogus" cs1).1 (by decide),
   (getitem_lookup "potential" cs1).2
     (fun s => Except.ok (PVal.scalar (get_pot s)))
     (List.Mem.tail _ (List.Mem.tail _ (List.Mem.tail _ (List.Mem.head _))))⟩

/-- The spec's degrees-of-freedom test state: k_B = 1, natoms = 2,
nbeads = 4, beads.kin = 10, with the centre of mass free. -/
def w6a : PState :=
  { nbeads := 4, natoms := 2, beadsQ := fun _ _ => 0, beadsQc := fun _ => 0,
    beadsKin := 10, beadsKstress := fun _ _ => 0, cellV := 1, cellKin := 0,
    cellH := fun _ _ => 0, forcesF := fun _ _ => 0, forcesPot := 0,
    forcesVir := fun _ _ => 0, ensembleTemp := 0, fixcom := false, econs := 0,
    dt := 1, step := 0, fd_delta := -DEFAULT_FINDIFF, kb := 1,
    msqrt := fun _ => 0, dpot := fun _ => 0, dbeadsQ := fun _ _ => 0,
    h2abc := fun _ => (0, 0, 0, 0, 0, 0) }

theorem temp_formula_witness :
    get_temp w6a = 10 / 48 ∧ get_temp { w6a with fixcom := true } = 10 / 42 :=
  ⟨(temp_formula.2 w6a rfl rfl rfl rfl).1 rfl,
   (temp_formula.2 { w6a with fixcom := true } rfl rfl rfl rfl).2 rfl⟩
